import Mathlib

set_option maxRecDepth 8000

/-!
Verification of the Rockchip Inno USB2 PHY charger-detection core
(`src/drivers/phy/phy-rockchip-inno-usb2.c`).

Two layers are embedded:

* the bit-field property accessor (`property_enable` / `property_enabled`)
  over a register space obeying the GRF write-enable half-word convention;
* the charger-detection state machine (`rockchip_chg_get_type`), modelled as
  a pure function from an environment of status-bit readings to an outcome
  carrying the classification, the ordered trace of control-register writes,
  the accumulated delay, the final retry counters and the number of status
  reads performed.
-/

namespace Usb2Phy

/-- `#define U2PHY_BIT_WRITEABLE_SHIFT 16` of the source. -/
def U2PHY_BIT_WRITEABLE_SHIFT : Nat := 16

/-- `2^32`, the modulus of `u32` arithmetic. -/
def U32 : Nat := 2 ^ 32

/-- `struct usb2phy_reg` of the source: one bit-field descriptor. -/
structure usb2phy_reg where
  offset : Nat
  bitend : Nat
  bitstart : Nat
  disable : Nat
  enable : Nat
deriving DecidableEq, Repr

/-- `GENMASK(h, l)` as used by the source, truncated to the `u32` variable
it is stored into (`u32 mask = GENMASK(reg->bitend, reg->bitstart)`). -/
def GENMASK (h l : Nat) : Nat := (2 ^ (h + 1) - 2 ^ l) % U32

/-- A register space: a total map from offsets to register contents. -/
def RegSpace : Type := Nat → Nat

/-- Modelled from the spec: the hardware register-write convention behind
`regmap_write` for these GRF registers (the write itself is u-boot
infrastructure outside this repository).  The upper half-word of the written
value is a per-bit write-enable mask for the lower half-word: bit `i` of the
register is replaced by bit `i` of the value exactly when bit `i + 16` of
the value is set ("bit-field write-enable convention"). -/
def grf_write (old val : Nat) : Nat :=
  let m := (val >>> 16) % 2 ^ 16
  ((old % U32) &&& ((U32 - 1) ^^^ m)) ||| (val &&& m)

/-- `regmap_write(base, off, val)`: update one register via `grf_write`. -/
def regmap_write (base : RegSpace) (off val : Nat) : RegSpace :=
  fun o => if o = off then grf_write (base off) val else base o

/-- `regmap_read(base, off, &orig)`: a `u32` read of one register. -/
def regmap_read (base : RegSpace) (off : Nat) : Nat := base off % U32

/-- `property_enable` of the source: write `enable` or `disable` into the
field's bit range, with the range's write-enable mask in the upper
half-word. -/
def property_enable (base : RegSpace) (reg : usb2phy_reg) (en : Bool) : RegSpace :=
  let tmp := if en then reg.enable else reg.disable
  let mask := GENMASK reg.bitend reg.bitstart
  let val := ((tmp <<< reg.bitstart) % U32) ||| ((mask <<< U2PHY_BIT_WRITEABLE_SHIFT) % U32)
  regmap_write base reg.offset val

/-- The value currently stored in a field's bit range of a register value. -/
def extract_field (v : Nat) (reg : usb2phy_reg) : Nat :=
  ((v % U32) &&& GENMASK reg.bitend reg.bitstart) >>> reg.bitstart

/-- `property_enabled` of the source: read the register, extract the bit
range, compare the extracted value with the `enable` encoding. -/
def property_enabled (base : RegSpace) (reg : usb2phy_reg) : Bool :=
  let mask := GENMASK reg.bitend reg.bitstart
  let orig := regmap_read base reg.offset
  let tmp := (orig &&& mask) >>> reg.bitstart
  tmp == reg.enable

/-! ## The charger-detection state machine -/

/-- `enum power_supply_type` of the source. -/
inductive power_supply_type
  | UNKNOWN
  | USB
  | USB_DCP
  | USB_CDP
  | USB_FLOATING
deriving DecidableEq, Repr

/-- The control fields written by the detection sequence. -/
inductive ChgField
  | phy_sus
  | opmode
  | rdm_pdwn_en
  | idp_src_en
  | vdp_src_en
  | idm_sink_en
  | vdm_src_en
  | idp_sink_en
deriving DecidableEq, BEq, Repr

/-- `#define CHG_DCD_MAX_RETRIES 6`. -/
def CHG_DCD_MAX_RETRIES : Nat := 6

/-- `#define CHG_PRI_MAX_RETRIES 2`. -/
def CHG_PRI_MAX_RETRIES : Nat := 2

/-- `#define CHG_DCD_POLL_TIME 100` (milliseconds). -/
def CHG_DCD_POLL_TIME : Nat := 100

/-- `#define CHG_PRIMARY_DET_TIME 40` (milliseconds). -/
def CHG_PRIMARY_DET_TIME : Nat := 40

/-- `#define CHG_SECONDARY_DET_TIME 40` (milliseconds). -/
def CHG_SECONDARY_DET_TIME : Nat := 40

/-- `rockchip_chg_enable_dcd(rphy, en)`: the pair of writes it performs. -/
def rockchip_chg_enable_dcd (en : Bool) : List (ChgField × Bool) :=
  [(ChgField.rdm_pdwn_en, en), (ChgField.idp_src_en, en)]

/-- `rockchip_chg_enable_primary_det(rphy, en)`: the pair of writes. -/
def rockchip_chg_enable_primary_det (en : Bool) : List (ChgField × Bool) :=
  [(ChgField.vdp_src_en, en), (ChgField.idm_sink_en, en)]

/-- `rockchip_chg_enable_secondary_det(rphy, en)`: the pair of writes. -/
def rockchip_chg_enable_secondary_det (en : Bool) : List (ChgField × Bool) :=
  [(ChgField.vdm_src_en, en), (ChgField.idp_sink_en, en)]

/-- The two cleanup writes at the `out:` label of `rockchip_chg_get_type`:
re-enable `opmode`, clear OTG port suspend. -/
def chg_cleanup_writes : List (ChgField × Bool) :=
  [(ChgField.opmode, true), (ChgField.phy_sus, false)]

/-- Status-bit environment of one detection run: the VBUS gpio, the
`utmi_bvalid` status, the successive values returned by the `dp_det` and
`cp_det` status reads, the single `dcp_det` read, and whether the
`CONFIG_ROCKCHIP_RK3036` always-SDP shortcut is compiled in. -/
structure ChgEnv where
  gpio_valid : Bool
  gpio_value : Bool
  bvalid : Bool
  dp_det : Nat → Bool
  cp_det : Nat → Bool
  dcp_det : Bool
  rk3036 : Bool

/-- The mutable retry counters of `struct rockchip_usb2phy` (`u8` each),
as they stand when `rockchip_chg_get_type` is entered. -/
structure RphyState where
  dcd_retries : Nat
  primary_retries : Nat
deriving DecidableEq, Repr

/-- Observable outcome of one `rockchip_chg_get_type` call: classification,
ordered trace of `property_enable` control writes, summed `mdelay` time in
milliseconds, final retry counters, and counts of `dp_det` / `cp_det` /
`dcp_det` status reads. -/
structure ChgOutcome where
  chg_type : power_supply_type
  writes : List (ChgField × Bool)
  delay : Nat
  dcd_retries : Nat
  primary_retries : Nat
  dpReads : Nat
  cpReads : Nat
  dcpReads : Nat
deriving DecidableEq, Repr

/-- Result of the DCD polling loop (`while (rphy->dcd_retries--)`): number
of body iterations executed (one `mdelay` + one `dp_det` read each), the
final value of the `u8` counter, whether the loop left through its `break`,
the writes performed inside the loop, and the summed delay. -/
structure DcdOut where
  iters : Nat
  counter : Nat
  broke : Bool
  writes : List (ChgField × Bool)
  delay : Nat
deriving DecidableEq, Repr

/-- The DCD loop of `rockchip_chg_get_type`, lines 369-384: consume one
retry per iteration (`while (rphy->dcd_retries--)`, `u8` wrap-around on the
exhausted test), sleep 100 ms, read `dp_det`; on `dp_det` asserted or
counter zero, disable the DCD bundle, enable the Primary Detect bundle and
break. -/
def chg_dcd_loop (dp : Nat → Bool) (i : Nat) : Nat → DcdOut
  | 0 => ⟨0, 255, false, [], 0⟩
  | c + 1 =>
    if dp i || c == 0 then
      ⟨1, c, true,
        rockchip_chg_enable_dcd false ++ rockchip_chg_enable_primary_det true,
        CHG_DCD_POLL_TIME⟩
    else
      let r := chg_dcd_loop dp (i + 1) c
      ⟨r.iters + 1, r.counter, r.broke, r.writes, CHG_DCD_POLL_TIME + r.delay⟩

/-- Result of the primary-detect retry loop
(`while (rphy->primary_retries--)`). -/
structure PriOut where
  iters : Nat
  counter : Nat
  vout : Bool
  writes : List (ChgField × Bool)
  delay : Nat
deriving DecidableEq, Repr

/-- The loop body of `rockchip_chg_primary_det_retry`, lines 273-280:
consume one retry per iteration, enable the Primary Detect bundle, sleep
40 ms, read `cp_det`, break on success.  `cp` read indices continue from
`i`. -/
def chg_primary_loop (cp : Nat → Bool) (i : Nat) : Nat → PriOut
  | 0 => ⟨0, 255, false, [], 0⟩
  | c + 1 =>
    if cp i then
      ⟨1, c, true, rockchip_chg_enable_primary_det true, CHG_PRIMARY_DET_TIME⟩
    else
      let r := chg_primary_loop cp (i + 1) c
      ⟨r.iters + 1, r.counter, r.vout,
        rockchip_chg_enable_primary_det true ++ r.writes,
        CHG_PRIMARY_DET_TIME + r.delay⟩

/-- `rockchip_chg_primary_det_retry`, lines 268-284: run the retry loop,
then disable the Primary Detect bundle once, after the loop. -/
def rockchip_chg_primary_det_retry (cp : Nat → Bool) (i c : Nat) : PriOut :=
  let r := chg_primary_loop cp i c
  { r with writes := r.writes ++ rockchip_chg_enable_primary_det false }

/-- Lines 390-391 / 404-405 and 414-421: enable the Secondary Detect
bundle, sleep 40 ms, read `dcp_det`, disable the bundle, classify DCP or
CDP, fall through to the cleanup writes. -/
def chg_secondary_stage (env : ChgEnv) (w : List (ChgField × Bool)) (d : Nat)
    (dcd pri dpr cpr : Nat) : ChgOutcome :=
  let vout := env.dcp_det
  { chg_type := if vout then power_supply_type.USB_DCP else power_supply_type.USB_CDP
    writes := w ++ rockchip_chg_enable_secondary_det true ++
      rockchip_chg_enable_secondary_det false ++ chg_cleanup_writes
    delay := d + CHG_SECONDARY_DET_TIME
    dcd_retries := dcd
    primary_retries := pri
    dpReads := dpr
    cpReads := cpr
    dcpReads := 1 }

/-- Lines 359-421 of `rockchip_chg_get_type` (the path past the VBUS check
without the RK3036 shortcut): suspend the PHY, disable `opmode`, reset the
counters to 6 and 2, run DCD, first primary detect, then branch into
secondary detect / floating classification / primary retries, always
falling through to the `out:` cleanup writes. -/
def chg_detect_core (env : ChgEnv) : ChgOutcome :=
  let w0 : List (ChgField × Bool) :=
    [(ChgField.phy_sus, true), (ChgField.opmode, false)] ++ rockchip_chg_enable_dcd true
  let L := chg_dcd_loop env.dp_det 0 CHG_DCD_MAX_RETRIES
  let d1 := L.delay + CHG_PRIMARY_DET_TIME
  let vout := env.cp_det 0
  let w2 := w0 ++ L.writes ++ rockchip_chg_enable_primary_det false
  if vout then
    chg_secondary_stage env w2 d1 L.counter CHG_PRI_MAX_RETRIES L.iters 1
  else if L.counter == 0 then
    { chg_type := power_supply_type.USB_FLOATING
      writes := w2 ++ chg_cleanup_writes
      delay := d1
      dcd_retries := L.counter
      primary_retries := CHG_PRI_MAX_RETRIES
      dpReads := L.iters
      cpReads := 1
      dcpReads := 0 }
  else
    let P := rockchip_chg_primary_det_retry env.cp_det 1 CHG_PRI_MAX_RETRIES
    if P.vout then
      chg_secondary_stage env (w2 ++ P.writes) (d1 + P.delay)
        L.counter P.counter L.iters (1 + P.iters)
    else
      { chg_type := power_supply_type.USB
        writes := w2 ++ P.writes ++ chg_cleanup_writes
        delay := d1 + P.delay
        dcd_retries := L.counter
        primary_retries := P.counter
        dpReads := L.iters
        cpReads := 1 + P.iters
        dcpReads := 0 }

/-- The early-Unknown outcome: no write, no delay, counters untouched. -/
def chg_unknown_outcome (s : RphyState) : ChgOutcome :=
  { chg_type := power_supply_type.UNKNOWN
    writes := []
    delay := 0
    dcd_retries := s.dcd_retries
    primary_retries := s.primary_retries
    dpReads := 0
    cpReads := 0
    dcpReads := 0 }

/-- Lines 354-357: under `CONFIG_ROCKCHIP_RK3036` classify SDP right after
the VBUS check and jump to the `out:` label, skipping stages 1-4 (but still
performing the two cleanup writes there); otherwise run the detection
core. -/
def chg_detect (env : ChgEnv) (s : RphyState) : ChgOutcome :=
  if env.rk3036 then
    { chg_type := power_supply_type.USB
      writes := chg_cleanup_writes
      delay := 0
      dcd_retries := s.dcd_retries
      primary_retries := s.primary_retries
      dpReads := 0
      cpReads := 0
      dcpReads := 0 }
  else chg_detect_core env

/-- `rockchip_chg_get_type`, lines 341-431: gate on the VBUS gpio when one
is bound, otherwise on the `utmi_bvalid` status bit; on failure return
Unknown immediately, otherwise run the detection. -/
def rockchip_chg_get_type (env : ChgEnv) (s : RphyState) : ChgOutcome :=
  if env.gpio_valid then
    if env.gpio_value then chg_detect env s else chg_unknown_outcome s
  else if env.bvalid then chg_detect env s
  else chg_unknown_outcome s

/-- The VBUS presence gate of lines 341-352. -/
def vbus_ok (env : ChgEnv) : Bool :=
  if env.gpio_valid then env.gpio_value else env.bvalid

/-- The boolean intent of the last `property_enable` write to a given field
in a write trace, if any. -/
def last_write (ws : List (ChgField × Bool)) (f : ChgField) : Option Bool :=
  ws.foldl (fun acc w => if w.1 = f then some w.2 else acc) none

/-- `rockchip_u2phy_vbus_detect`, lines 433-441. -/
def rockchip_u2phy_vbus_detect (env : ChgEnv) (s : RphyState) : Nat :=
  let t := (rockchip_chg_get_type env s).chg_type
  if t = power_supply_type.USB ∨ t = power_supply_type.USB_CDP then 1 else 0

/-- Baseline concrete environment: no gpio, `utmi_bvalid` asserted, every
status read false, common (non-RK3036) build. -/
def env_base : ChgEnv :=
  { gpio_valid := false
    gpio_value := false
    bvalid := true
    dp_det := fun _ => false
    cp_det := fun _ => false
    dcp_det := false
    rk3036 := false }

/-- Concrete entry counters (arbitrary nonzero values, to observe whether a
run modifies them). -/
def st0 : RphyState := ⟨9, 7⟩

/-- All-zero register space. -/
def base0 : RegSpace := fun _ => 0

/-- A well-formed 2-bit field with distinct, fitting encodings. -/
def reg_w : usb2phy_reg := ⟨256, 3, 2, 1, 2⟩

/-- A 1-bit field with distinct encodings whose enable encoding does not
fit the bit range. -/
def reg_cx5 : usb2phy_reg := ⟨0, 0, 0, 0, 2⟩

/-- A 1-bit field with equal encodings that do not fit the bit range. -/
def reg_cx6 : usb2phy_reg := ⟨0, 0, 0, 2, 2⟩

/-- A 3-bit field with equal, fitting encodings (the `opmode` disable-code
shape mentioned by the spec). -/
def reg_w6 : usb2phy_reg := ⟨0, 2, 0, 5, 5⟩

/-! ## General lemmas about the embedding -/

theorem get_type_eq_detect (env : ChgEnv) (s : RphyState) (h : vbus_ok env = true) :
    rockchip_chg_get_type env s = chg_detect env s := by
  unfold rockchip_chg_get_type
  unfold vbus_ok at h
  by_cases hg : env.gpio_valid = true
  · rw [if_pos hg] at h
    rw [if_pos hg, if_pos h]
  · rw [if_neg hg] at h
    rw [if_neg hg, if_pos h]

theorem get_type_eq_unknown (env : ChgEnv) (s : RphyState) (h : vbus_ok env = false) :
    rockchip_chg_get_type env s = chg_unknown_outcome s := by
  unfold rockchip_chg_get_type
  unfold vbus_ok at h
  by_cases hg : env.gpio_valid = true
  · rw [if_pos hg] at h
    rw [if_pos hg, if_neg (by simp [h])]
  · rw [if_neg hg] at h
    rw [if_neg hg, if_neg (by simp [h])]

theorem last_write_cleanup (xs : List (ChgField × Bool)) :
    last_write (xs ++ chg_cleanup_writes) ChgField.phy_sus = some false ∧
    last_write (xs ++ chg_cleanup_writes) ChgField.opmode = some true := by
  simp [last_write, chg_cleanup_writes, List.foldl_append]

theorem chg_dcd_loop_spec (dp : Nat → Bool) :
    ∀ c i, 0 < c →
    (chg_dcd_loop dp i c).broke = true ∧
    1 ≤ (chg_dcd_loop dp i c).iters ∧
    (chg_dcd_loop dp i c).iters ≤ c ∧
    (chg_dcd_loop dp i c).counter = c - (chg_dcd_loop dp i c).iters ∧
    (chg_dcd_loop dp i c).delay = CHG_DCD_POLL_TIME * (chg_dcd_loop dp i c).iters ∧
    (chg_dcd_loop dp i c).writes =
      rockchip_chg_enable_dcd false ++ rockchip_chg_enable_primary_det true ∧
    (dp (i + ((chg_dcd_loop dp i c).iters - 1)) = true ∨ (chg_dcd_loop dp i c).iters = c) ∧
    (∀ j, j + 1 < (chg_dcd_loop dp i c).iters → dp (i + j) = false) := by
  intro c
  induction c with
  | zero => intro i h0; exact absurd h0 (Nat.lt_irrefl 0)
  | succ c ih =>
    intro i _
    by_cases hcond : (dp i || c == 0) = true
    · have heq : chg_dcd_loop dp i (c + 1) =
          ⟨1, c, true,
            rockchip_chg_enable_dcd false ++ rockchip_chg_enable_primary_det true,
            CHG_DCD_POLL_TIME⟩ := by
        simp [chg_dcd_loop, hcond]
      rw [heq]
      have hcond' : dp i = true ∨ c = 0 := by simpa using hcond
      refine ⟨rfl, Nat.le_refl 1, by dsimp only; omega, by dsimp only; omega, by simp, rfl,
        ?_, fun j hj => absurd hj (by dsimp only at hj ⊢; omega)⟩
      dsimp only
      rcases hcond' with hd | hc
      · left; simpa using hd
      · right; omega
    · have hcond' : dp i = false ∧ ¬ c = 0 := by
        simpa [not_or] using hcond
      have heq : chg_dcd_loop dp i (c + 1) =
          ⟨(chg_dcd_loop dp (i + 1) c).iters + 1, (chg_dcd_loop dp (i + 1) c).counter,
            (chg_dcd_loop dp (i + 1) c).broke, (chg_dcd_loop dp (i + 1) c).writes,
            CHG_DCD_POLL_TIME + (chg_dcd_loop dp (i + 1) c).delay⟩ := by
        simp [chg_dcd_loop, hcond]
      obtain ⟨B, I1, I2, CT, D, W, C, F⟩ := ih (i + 1) (Nat.pos_of_ne_zero hcond'.2)
      rw [heq]
      refine ⟨B, by dsimp only; omega, by dsimp only; omega, by dsimp only; omega,
        ?_, W, ?_, ?_⟩
      · dsimp only
        rw [D, Nat.mul_succ]
        omega
      · dsimp only
        rcases C with hC | hC
        · left
          have harith : i + ((chg_dcd_loop dp (i + 1) c).iters + 1 - 1) =
              i + 1 + ((chg_dcd_loop dp (i + 1) c).iters - 1) := by omega
          rw [harith]
          exact hC
        · right; omega
      · dsimp only
        intro j hj
        cases j with
        | zero => simpa using hcond'.1
        | succ j =>
          have harith : i + (j + 1) = i + 1 + j := by omega
          rw [harith]
          exact F j (by omega)

theorem chg_dcd_loop_all_false (dp : Nat → Bool) :
    ∀ c i, 0 < c → (∀ j, j < c → dp (i + j) = false) →
    chg_dcd_loop dp i c =
      ⟨c, 0, true,
        rockchip_chg_enable_dcd false ++ rockchip_chg_enable_primary_det true,
        CHG_DCD_POLL_TIME * c⟩ := by
  intro c
  induction c with
  | zero => intro i h0 _; exact absurd h0 (Nat.lt_irrefl 0)
  | succ c ih =>
    intro i _ hall
    have h1 : dp i = false := by simpa using hall 0 (by omega)
    by_cases hc : c = 0
    · subst hc
      simp [chg_dcd_loop, h1]
    · have hr := ih (i + 1) (Nat.pos_of_ne_zero hc) (fun j hj => by
        have harith : i + 1 + j = i + (j + 1) := by omega
        rw [harith]
        exact hall (j + 1) (by omega))
      have hcond : ¬ (dp i || c == 0) = true := by simp [h1, hc]
      have hdelay : CHG_DCD_POLL_TIME + CHG_DCD_POLL_TIME * c =
          CHG_DCD_POLL_TIME * (c + 1) := by
        rw [Nat.mul_succ]
        exact Nat.add_comm _ _
      simp only [chg_dcd_loop, hcond, hr, hdelay, Bool.false_eq_true, if_false]

theorem chg_dcd_loop_first_true (dp : Nat → Bool) :
    ∀ k c i, k < c → dp (i + k) = true → (∀ j, j < k → dp (i + j) = false) →
    chg_dcd_loop dp i c =
      ⟨k + 1, c - (k + 1), true,
        rockchip_chg_enable_dcd false ++ rockchip_chg_enable_primary_det true,
        CHG_DCD_POLL_TIME * (k + 1)⟩ := by
  intro k
  induction k with
  | zero =>
    intro c i hk ht _
    cases c with
    | zero => exact absurd hk (Nat.lt_irrefl 0)
    | succ c =>
      have ht' : dp i = true := by simpa using ht
      simp [chg_dcd_loop, ht']
  | succ k ih =>
    intro c i hk ht hf
    cases c with
    | zero => exact absurd hk (Nat.not_lt_zero _)
    | succ c =>
      have h1 : dp i = false := by simpa using hf 0 (by omega)
      have hc : c ≠ 0 := by omega
      have hcond : ¬ (dp i || c == 0) = true := by simp [h1, hc]
      have hr := ih c (i + 1) (by omega)
        (by
          have harith : i + 1 + k = i + (k + 1) := by omega
          rw [harith]; exact ht)
        (fun j hj => by
          have harith : i + 1 + j = i + (j + 1) := by omega
          rw [harith]; exact hf (j + 1) (by omega))
      have hciter : c - (k + 1) = c + 1 - (k + 1 + 1) := by omega
      have hdelay : CHG_DCD_POLL_TIME + CHG_DCD_POLL_TIME * (k + 1) =
          CHG_DCD_POLL_TIME * (k + 1 + 1) := by
        rw [Nat.mul_succ]
        exact Nat.add_comm _ _
      simp only [chg_dcd_loop, hcond, hr, hciter, hdelay, Bool.false_eq_true, if_false]

theorem chg_detect_cleanup_last (env : ChgEnv) (s : RphyState) :
    last_write (chg_detect env s).writes ChgField.phy_sus = some false ∧
    last_write (chg_detect env s).writes ChgField.opmode = some true := by
  simp only [chg_detect, chg_detect_core, chg_secondary_stage]
  split_ifs <;>
    exact ⟨by simp [last_write, chg_cleanup_writes, List.foldl_append],
      by simp [last_write, chg_cleanup_writes, List.foldl_append]⟩

theorem chg_primary_loop_true (cp : Nat → Bool) (i c : Nat) (h : cp i = true) :
    chg_primary_loop cp i (c + 1) =
      ⟨1, c, true, rockchip_chg_enable_primary_det true, CHG_PRIMARY_DET_TIME⟩ := by
  simp [chg_primary_loop, h]

theorem rockchip_chg_primary_det_retry_two_false (cp : Nat → Bool)
    (h1 : cp 1 = false) (h2 : cp 2 = false) :
    rockchip_chg_primary_det_retry cp 1 2 =
      ⟨2, 255, false,
        rockchip_chg_enable_primary_det true ++ rockchip_chg_enable_primary_det true ++
          rockchip_chg_enable_primary_det false,
        2 * CHG_PRIMARY_DET_TIME⟩ := by
  simp [rockchip_chg_primary_det_retry, chg_primary_loop, h1, h2, CHG_PRIMARY_DET_TIME]

/-! ## Claim theorems -/

/-- C1 counterexample: on the early-Unknown exit (VBUS gpio bound and
reading low) the call performs no write at all, so the stage-5 cleanup
writes do not happen on that exit path and no last write sets the suspend
field false or the opmode field enabled. -/
theorem C1_cex :
    ¬ (last_write (rockchip_chg_get_type { env_base with gpio_valid := true } st0).writes
          ChgField.phy_sus = some false ∧
        last_write (rockchip_chg_get_type { env_base with gpio_valid := true } st0).writes
          ChgField.opmode = some true) := by
  decide

/-- C1 (amended): on every `rockchip_chg_get_type` call that passes the
VBUS-presence check — on all classification branches, including the RK3036
variant shortcut — the last write to the OTG suspend field is `false` and
the last write to `opmode` is `true` (the stage-5 cleanup writes run); the
early Unknown exits instead perform no write at all. -/
theorem C1_thm (env : ChgEnv) (s : RphyState) (h : vbus_ok env = true) :
    last_write (rockchip_chg_get_type env s).writes ChgField.phy_sus = some false ∧
    last_write (rockchip_chg_get_type env s).writes ChgField.opmode = some true := by
  rw [get_type_eq_detect env s h]
  exact chg_detect_cleanup_last env s

/-- C1 witness: concrete run through the full detection sequence. -/
theorem C1_wit :
    vbus_ok env_base = true ∧
    (last_write (rockchip_chg_get_type env_base st0).writes ChgField.phy_sus = some false ∧
      last_write (rockchip_chg_get_type env_base st0).writes ChgField.opmode = some true) :=
  ⟨by decide, C1_thm env_base st0 (by decide)⟩

/-- C7: when the VBUS gpio is bound and reads low, or when no gpio is bound
and `utmi_bvalid` is not asserted, detection returns Unknown immediately:
no register write, no sleep, and the retry counters keep their entry
values. -/
theorem C7_thm (env : ChgEnv) (s : RphyState)
    (h : (env.gpio_valid = true ∧ env.gpio_value = false) ∨
      (env.gpio_valid = false ∧ env.bvalid = false)) :
    rockchip_chg_get_type env s = chg_unknown_outcome s ∧
    (rockchip_chg_get_type env s).chg_type = power_supply_type.UNKNOWN ∧
    (rockchip_chg_get_type env s).writes = [] ∧
    (rockchip_chg_get_type env s).delay = 0 ∧
    (rockchip_chg_get_type env s).dcd_retries = s.dcd_retries ∧
    (rockchip_chg_get_type env s).primary_retries = s.primary_retries ∧
    (rockchip_chg_get_type env s).dpReads = 0 ∧
    (rockchip_chg_get_type env s).cpReads = 0 := by
  have hv : vbus_ok env = false := by
    unfold vbus_ok
    rcases h with ⟨h1, h2⟩ | ⟨h1, h2⟩
    · rw [if_pos h1]
      exact h2
    · rw [if_neg (by simp [h1])]
      exact h2
  rw [get_type_eq_unknown env s hv]
  exact ⟨rfl, rfl, rfl, rfl, rfl, rfl, rfl, rfl⟩

/-- C7 witness: no gpio bound, `utmi_bvalid` deasserted. -/
theorem C7_wit :
    (rockchip_chg_get_type { env_base with bvalid := false } st0).chg_type =
      power_supply_type.UNKNOWN ∧
    (rockchip_chg_get_type { env_base with bvalid := false } st0).writes = [] ∧
    (rockchip_chg_get_type { env_base with bvalid := false } st0).delay = 0 ∧
    (rockchip_chg_get_type { env_base with bvalid := false } st0).dcd_retries =
      st0.dcd_retries :=
  have h := C7_thm { env_base with bvalid := false } st0 (Or.inr ⟨rfl, rfl⟩)
  ⟨h.2.1, h.2.2.1, h.2.2.2.1, h.2.2.2.2.1⟩

/-- C9 counterexample: on the RK3036 always-SDP shortcut with VBUS present,
the claim says neither the stage-1 writes nor the stage-5 cleanup writes
happen; in fact the shortcut jumps to the `out:` label and the two cleanup
writes are performed, so the write trace is not empty. -/
theorem C9_cex :
    (rockchip_chg_get_type { env_base with rk3036 := true } st0).writes ≠ [] := by
  decide

/-- C9 (amended): the RK3036 variant shortcut classifies SDP right after
the VBUS presence check and skips the stage-1 suspend-assert and
opmode-disable writes (and all detection stages), but it jumps to the
`out:` label and does perform the stage-5 cleanup writes (opmode re-enable,
suspend clear); counters, delay and status reads are untouched. -/
theorem C9_thm (env : ChgEnv) (s : RphyState) (h : vbus_ok env = true)
    (h36 : env.rk3036 = true) :
    rockchip_chg_get_type env s =
      { chg_type := power_supply_type.USB
        writes := chg_cleanup_writes
        delay := 0
        dcd_retries := s.dcd_retries
        primary_retries := s.primary_retries
        dpReads := 0
        cpReads := 0
        dcpReads := 0 } ∧
    (ChgField.phy_sus, true) ∉ (rockchip_chg_get_type env s).writes ∧
    (ChgField.opmode, false) ∉ (rockchip_chg_get_type env s).writes ∧
    last_write (rockchip_chg_get_type env s).writes ChgField.opmode = some true ∧
    last_write (rockchip_chg_get_type env s).writes ChgField.phy_sus = some false := by
  have he : rockchip_chg_get_type env s =
      { chg_type := power_supply_type.USB
        writes := chg_cleanup_writes
        delay := 0
        dcd_retries := s.dcd_retries
        primary_retries := s.primary_retries
        dpReads := 0
        cpReads := 0
        dcpReads := 0 } := by
    rw [get_type_eq_detect env s h]
    simp [chg_detect, h36]
  refine ⟨he, ?_, ?_, ?_, ?_⟩ <;> rw [he] <;> simp [chg_cleanup_writes, last_write]

/-- C9 witness: concrete RK3036 run. -/
theorem C9_wit :
    rockchip_chg_get_type { env_base with rk3036 := true } st0 =
      { chg_type := power_supply_type.USB
        writes := chg_cleanup_writes
        delay := 0
        dcd_retries := st0.dcd_retries
        primary_retries := st0.primary_retries
        dpReads := 0
        cpReads := 0
        dcpReads := 0 } ∧
    (ChgField.phy_sus, true) ∉
      (rockchip_chg_get_type { env_base with rk3036 := true } st0).writes :=
  have h := C9_thm { env_base with rk3036 := true } st0 (by decide) rfl
  ⟨h.1, h.2.1⟩

/-- C10: when `dp_det` first reads asserted on the 6th and final DCD poll
(the iteration that also consumes the counter down to zero) and the single
post-loop `cp_det` read is false, the run classifies FloatingDCP and never
enters the primary-detect retries or the secondary stage. -/
theorem C10_thm (env : ChgEnv) (s : RphyState) (h : vbus_ok env = true)
    (h36 : env.rk3036 = false) (ht : env.dp_det 5 = true)
    (hf : ∀ j, j < 5 → env.dp_det j = false) (hcp : env.cp_det 0 = false) :
    (rockchip_chg_get_type env s).chg_type = power_supply_type.USB_FLOATING ∧
    (rockchip_chg_get_type env s).dpReads = 6 ∧
    (rockchip_chg_get_type env s).dcd_retries = 0 ∧
    (rockchip_chg_get_type env s).cpReads = 1 ∧
    (∀ b, (ChgField.vdm_src_en, b) ∉ (rockchip_chg_get_type env s).writes) := by
  have hL : chg_dcd_loop env.dp_det 0 CHG_DCD_MAX_RETRIES =
      ⟨6, 0, true,
        rockchip_chg_enable_dcd false ++ rockchip_chg_enable_primary_det true,
        CHG_DCD_POLL_TIME * 6⟩ := by
    have h6 := chg_dcd_loop_first_true env.dp_det 5 6 0 (by omega)
      (by simpa using ht) (fun j hj => by simpa using hf j hj)
    simpa [CHG_DCD_MAX_RETRIES] using h6
  rw [get_type_eq_detect env s h]
  simp only [chg_detect, h36, Bool.false_eq_true, if_false]
  simp [chg_detect_core, hL, hcp, rockchip_chg_enable_dcd,
    rockchip_chg_enable_primary_det, chg_cleanup_writes]

/-- C10 witness: `dp_det` asserted exactly on the 6th poll. -/
theorem C10_wit :
    (rockchip_chg_get_type { env_base with dp_det := fun i => i == 5 } st0).chg_type =
      power_supply_type.USB_FLOATING ∧
    (rockchip_chg_get_type { env_base with dp_det := fun i => i == 5 } st0).dpReads = 6 ∧
    (rockchip_chg_get_type { env_base with dp_det := fun i => i == 5 } st0).dcd_retries = 0 ∧
    (rockchip_chg_get_type { env_base with dp_det := fun i => i == 5 } st0).cpReads = 1 :=
  have h := C10_thm { env_base with dp_det := fun i => i == 5 } st0 (by decide) rfl
    (by decide) (by decide) rfl
  ⟨h.1, h.2.1, h.2.2.1, h.2.2.2.1⟩

/-- C3: if the first post-DCD `cp_det` read is false and the DCD counter
has reached zero, the run classifies FloatingDCP and goes straight to the
cleanup writes: a single `cp_det` read, no `dcp_det` read, and no
secondary-detect write. -/
theorem C3_thm (env : ChgEnv) (s : RphyState) (h : vbus_ok env = true)
    (h36 : env.rk3036 = false) (hcp : env.cp_det 0 = false)
    (hdcd : (chg_dcd_loop env.dp_det 0 CHG_DCD_MAX_RETRIES).counter = 0) :
    (rockchip_chg_get_type env s).chg_type = power_supply_type.USB_FLOATING ∧
    (rockchip_chg_get_type env s).cpReads = 1 ∧
    (rockchip_chg_get_type env s).dcpReads = 0 ∧
    (∀ b, (ChgField.vdm_src_en, b) ∉ (rockchip_chg_get_type env s).writes ∧
      (ChgField.idp_sink_en, b) ∉ (rockchip_chg_get_type env s).writes) ∧
    last_write (rockchip_chg_get_type env s).writes ChgField.opmode = some true ∧
    last_write (rockchip_chg_get_type env s).writes ChgField.phy_sus = some false := by
  obtain ⟨B, I1, I2, CT, D, W, C, F⟩ :=
    chg_dcd_loop_spec env.dp_det CHG_DCD_MAX_RETRIES 0 (by decide)
  rw [get_type_eq_detect env s h]
  simp only [chg_detect, h36, Bool.false_eq_true, if_false]
  simp [chg_detect_core, hcp, hdcd, W, rockchip_chg_enable_dcd,
    rockchip_chg_enable_primary_det, chg_cleanup_writes, last_write]

/-- C3 witness: `dp_det` never asserted across all 6 polls, `cp_det` false
on the single post-loop read. -/
theorem C3_wit :
    (rockchip_chg_get_type env_base st0).chg_type = power_supply_type.USB_FLOATING ∧
    (rockchip_chg_get_type env_base st0).cpReads = 1 ∧
    (rockchip_chg_get_type env_base st0).dcpReads = 0 :=
  have h := C3_thm env_base st0 (by decide) rfl rfl (by decide)
  ⟨h.1, h.2.1, h.2.2.1⟩

/-- C2: the DCD stage loops at most 6 times (one 100 ms sleep plus one
`dp_det` read per iteration), consumes one retry on every iteration
including the terminating one (final counter = 6 − iterations), stops as
soon as `dp_det` reads asserted or the budget is exhausted, and on stopping
disables the DCD bundle and enables the Primary Detect bundle. -/
theorem C2_thm (env : ChgEnv) (s : RphyState) (h : vbus_ok env = true)
    (h36 : env.rk3036 = false) :
    (rockchip_chg_get_type env s).dpReads =
      (chg_dcd_loop env.dp_det 0 CHG_DCD_MAX_RETRIES).iters ∧
    (rockchip_chg_get_type env s).dcd_retries =
      (chg_dcd_loop env.dp_det 0 CHG_DCD_MAX_RETRIES).counter ∧
    1 ≤ (chg_dcd_loop env.dp_det 0 CHG_DCD_MAX_RETRIES).iters ∧
    (chg_dcd_loop env.dp_det 0 CHG_DCD_MAX_RETRIES).iters ≤ CHG_DCD_MAX_RETRIES ∧
    (chg_dcd_loop env.dp_det 0 CHG_DCD_MAX_RETRIES).counter =
      CHG_DCD_MAX_RETRIES - (chg_dcd_loop env.dp_det 0 CHG_DCD_MAX_RETRIES).iters ∧
    (chg_dcd_loop env.dp_det 0 CHG_DCD_MAX_RETRIES).delay =
      CHG_DCD_POLL_TIME * (chg_dcd_loop env.dp_det 0 CHG_DCD_MAX_RETRIES).iters ∧
    (env.dp_det ((chg_dcd_loop env.dp_det 0 CHG_DCD_MAX_RETRIES).iters - 1) = true ∨
      (chg_dcd_loop env.dp_det 0 CHG_DCD_MAX_RETRIES).iters = CHG_DCD_MAX_RETRIES) ∧
    (∀ j, j + 1 < (chg_dcd_loop env.dp_det 0 CHG_DCD_MAX_RETRIES).iters →
      env.dp_det j = false) ∧
    (chg_dcd_loop env.dp_det 0 CHG_DCD_MAX_RETRIES).broke = true ∧
    (chg_dcd_loop env.dp_det 0 CHG_DCD_MAX_RETRIES).writes =
      rockchip_chg_enable_dcd false ++ rockchip_chg_enable_primary_det true := by
  obtain ⟨B, I1, I2, CT, D, W, C, F⟩ :=
    chg_dcd_loop_spec env.dp_det CHG_DCD_MAX_RETRIES 0 (by decide)
  have hdp : (rockchip_chg_get_type env s).dpReads =
      (chg_dcd_loop env.dp_det 0 CHG_DCD_MAX_RETRIES).iters ∧
      (rockchip_chg_get_type env s).dcd_retries =
        (chg_dcd_loop env.dp_det 0 CHG_DCD_MAX_RETRIES).counter := by
    rw [get_type_eq_detect env s h]
    simp only [chg_detect, h36, Bool.false_eq_true, if_false]
    simp only [chg_detect_core, chg_secondary_stage]
    split_ifs <;> exact ⟨rfl, rfl⟩
  refine ⟨hdp.1, hdp.2, I1, I2, CT, D, ?_, ?_, B, W⟩
  · simpa using C
  · intro j hj
    simpa using F j hj

/-- C2 witness: concrete all-false run consumes all 6 retries. -/
theorem C2_wit :
    (rockchip_chg_get_type env_base st0).dpReads =
      (chg_dcd_loop env_base.dp_det 0 CHG_DCD_MAX_RETRIES).iters ∧
    (chg_dcd_loop env_base.dp_det 0 CHG_DCD_MAX_RETRIES).iters ≤ CHG_DCD_MAX_RETRIES ∧
    (chg_dcd_loop env_base.dp_det 0 CHG_DCD_MAX_RETRIES).counter =
      CHG_DCD_MAX_RETRIES - (chg_dcd_loop env_base.dp_det 0 CHG_DCD_MAX_RETRIES).iters ∧
    (chg_dcd_loop env_base.dp_det 0 CHG_DCD_MAX_RETRIES).writes =
      rockchip_chg_enable_dcd false ++ rockchip_chg_enable_primary_det true :=
  have h := C2_thm env_base st0 (by decide) rfl
  ⟨h.1, h.2.2.2.1, h.2.2.2.2.1, h.2.2.2.2.2.2.2.2.2⟩

/-- C4 counterexample: with data contact on the first DCD poll and `cp_det`
always false there are exactly 3 primary-detect attempts (`cpReads = 3`),
but the Primary Detect bundle is disabled only twice — once after the first
read and once after the whole retry loop — not once per attempt as the
claim describes. -/
theorem C4_cex :
    (rockchip_chg_get_type { env_base with dp_det := fun i => i == 0 } st0).cpReads = 3 ∧
    (rockchip_chg_get_type { env_base with dp_det := fun i => i == 0 } st0).writes.count
      (ChgField.vdp_src_en, false) = 2 ∧
    ¬ ((rockchip_chg_get_type { env_base with dp_det := fun i => i == 0 } st0).writes.count
        (ChgField.vdp_src_en, false) =
      (rockchip_chg_get_type { env_base with dp_det := fun i => i == 0 } st0).cpReads) := by
  decide

/-- C4 (amended): when DCD finds contact with retry budget remaining and
the first `cp_det` read is false, primary detection is retried up to 2
additional times, each retry enabling the Primary Detect bundle, sleeping
40 ms and reading `cp_det`, stopping at the first success; the bundle is
disabled once after the first read and once after the retry loop ends (not
after every attempt).  If every read is false the classification is SDP
after exactly 1 + 2 = 3 attempts. -/
theorem C4_thm (env : ChgEnv) (s : RphyState) (h : vbus_ok env = true)
    (h36 : env.rk3036 = false) (k : Nat) (hk : k < 5) (ht : env.dp_det k = true)
    (hf : ∀ j, j < k → env.dp_det j = false)
    (hcp : ∀ i, i < 3 → env.cp_det i = false) :
    (rockchip_chg_get_type env s).chg_type = power_supply_type.USB ∧
    (rockchip_chg_get_type env s).cpReads = 3 ∧
    (rockchip_chg_get_type env s).dpReads = k + 1 ∧
    (rockchip_chg_get_type env s).writes =
      [(ChgField.phy_sus, true), (ChgField.opmode, false)] ++
        rockchip_chg_enable_dcd true ++
        (rockchip_chg_enable_dcd false ++ rockchip_chg_enable_primary_det true) ++
        rockchip_chg_enable_primary_det false ++
        (rockchip_chg_enable_primary_det true ++ rockchip_chg_enable_primary_det true ++
          rockchip_chg_enable_primary_det false) ++
        chg_cleanup_writes ∧
    (rockchip_chg_get_type env s).delay =
      CHG_DCD_POLL_TIME * (k + 1) + 3 * CHG_PRIMARY_DET_TIME ∧
    (∀ cp2 : Nat → Bool, cp2 1 = true →
      chg_primary_loop cp2 1 CHG_PRI_MAX_RETRIES =
        ⟨1, 1, true, rockchip_chg_enable_primary_det true, CHG_PRIMARY_DET_TIME⟩) := by
  have hL : chg_dcd_loop env.dp_det 0 CHG_DCD_MAX_RETRIES =
      ⟨k + 1, 5 - k, true,
        rockchip_chg_enable_dcd false ++ rockchip_chg_enable_primary_det true,
        CHG_DCD_POLL_TIME * (k + 1)⟩ := by
    have h6 := chg_dcd_loop_first_true env.dp_det k 6 0 (by omega)
      (by simpa using ht) (fun j hj => by simpa using hf j hj)
    have h56 : (6 : Nat) - (k + 1) = 5 - k := by omega
    simpa [CHG_DCD_MAX_RETRIES, h56] using h6
  have hcnt : ¬ ((5 : Nat) - k = 0) := by omega
  have hP := rockchip_chg_primary_det_retry_two_false env.cp_det
    (hcp 1 (by omega)) (hcp 2 (by omega))
  rw [get_type_eq_detect env s h]
  simp only [chg_detect, h36, Bool.false_eq_true, if_false]
  refine ⟨?_, ?_, ?_, ?_, ?_, fun cp2 hcp2 => chg_primary_loop_true cp2 1 1 hcp2⟩ <;>
    simp [chg_detect_core, hL, hcp 0 (by omega), hcnt, hP, CHG_PRI_MAX_RETRIES,
      rockchip_chg_enable_dcd, rockchip_chg_enable_primary_det, chg_cleanup_writes,
      CHG_PRIMARY_DET_TIME]

/-- C4 witness: contact on the first poll, `cp_det` false on all three
primary reads, SDP after 3 attempts. -/
theorem C4_wit :
    (rockchip_chg_get_type { env_base with dp_det := fun i => i == 0 } st0).chg_type =
      power_supply_type.USB ∧
    (rockchip_chg_get_type { env_base with dp_det := fun i => i == 0 } st0).cpReads = 3 ∧
    (rockchip_chg_get_type { env_base with dp_det := fun i => i == 0 } st0).dpReads = 1 :=
  have h := C4_thm { env_base with dp_det := fun i => i == 0 } st0 (by decide) rfl 0
    (by omega) (by decide) (fun j hj => absurd hj (by omega)) (by decide)
  ⟨h.1, h.2.1, h.2.2.1⟩

/-- C8 counterexample: with `dp_det` never asserted during all 6 DCD polls
but `cp_det` asserted on the post-loop read, the run continues into the
secondary-detect stage and sleeps a further 40 ms, so the total delay is
680 ms, not 640 ms. -/
theorem C8_cex :
    (∀ i, i < 6 →
      ({ env_base with cp_det := fun _ => true, dcp_det := true } : ChgEnv).dp_det i
        = false) ∧
    ¬ ((rockchip_chg_get_type
        { env_base with cp_det := fun _ => true, dcp_det := true } st0).delay = 640) := by
  decide

/-- C8 (amended): along the full DCD-exhaustion path the accumulated delay
is 6×100 ms + 40 ms = 640 ms exactly when the single post-loop `cp_det`
read is false (the FloatingDCP branch); when it reads true the secondary
stage adds another 40 ms, for 680 ms in total (whether DCP or CDP). -/
theorem C8_thm (env : ChgEnv) (s : RphyState) (h : vbus_ok env = true)
    (h36 : env.rk3036 = false)
    (hdp : ∀ i, i < CHG_DCD_MAX_RETRIES → env.dp_det i = false) :
    (rockchip_chg_get_type env s).delay = if env.cp_det 0 then 680 else 640 := by
  have hL : chg_dcd_loop env.dp_det 0 CHG_DCD_MAX_RETRIES =
      ⟨6, 0, true,
        rockchip_chg_enable_dcd false ++ rockchip_chg_enable_primary_det true, 600⟩ := by
    have h6 := chg_dcd_loop_all_false env.dp_det 6 0 (by omega)
      (fun j hj => by simpa using hdp j (by simpa [CHG_DCD_MAX_RETRIES] using hj))
    simpa [CHG_DCD_MAX_RETRIES, CHG_DCD_POLL_TIME] using h6
  rw [get_type_eq_detect env s h]
  simp only [chg_detect, h36, Bool.false_eq_true, if_false]
  by_cases hc : env.cp_det 0 = true
  · simp [chg_detect_core, hL, hc, chg_secondary_stage, CHG_PRIMARY_DET_TIME,
      CHG_SECONDARY_DET_TIME]
  · have hc' : env.cp_det 0 = false := by simpa using hc
    simp [chg_detect_core, hL, hc', CHG_PRIMARY_DET_TIME]

/-- C8 witness: all-false run totals exactly 640 ms. -/
theorem C8_wit :
    (rockchip_chg_get_type env_base st0).delay =
      if env_base.cp_det 0 then 680 else 640 :=
  C8_thm env_base st0 (by decide) rfl (by decide)

/-! ## Register-level lemmas -/

theorem GENMASK_eq {h : Nat} (l : Nat) (hh : h < 32) :
    GENMASK h l = 2 ^ (h + 1) - 2 ^ l := by
  unfold GENMASK U32
  apply Nat.mod_eq_of_lt
  have h1 : 2 ^ (h + 1) ≤ 2 ^ 32 := Nat.pow_le_pow_right (by omega) (by omega)
  have h2 : 0 < 2 ^ l := Nat.two_pow_pos l
  omega

theorem GENMASK_shiftLeft {h l : Nat} (hlh : l ≤ h) (hh : h < 32) :
    GENMASK h l = (2 ^ (h - l + 1) - 1) <<< l := by
  rw [GENMASK_eq l hh, Nat.shiftLeft_eq, Nat.sub_mul, one_mul]
  have hp : 2 ^ (h - l + 1) * 2 ^ l = 2 ^ (h + 1) := by
    rw [← pow_add]
    congr 1
    omega
  rw [hp]

theorem GENMASK_lt {h l : Nat} (hh : h < 16) : GENMASK h l < 2 ^ 16 := by
  rw [GENMASK_eq l (by omega)]
  have h1 : 2 ^ (h + 1) ≤ 2 ^ 16 := Nat.pow_le_pow_right (by omega) (by omega)
  have h2 : 0 < 2 ^ l := Nat.two_pow_pos l
  omega

theorem testBit_GENMASK {h l : Nat} (hlh : l ≤ h) (hh : h < 32) (i : Nat) :
    (GENMASK h l).testBit i = decide (l ≤ i ∧ i ≤ h) := by
  rw [GENMASK_shiftLeft hlh hh]
  simp only [Nat.testBit_shiftLeft, Nat.testBit_two_pow_sub_one, ge_iff_le]
  by_cases hi : l ≤ i
  · simp only [hi, decide_True, Bool.true_and, true_and]
    rw [decide_eq_decide]
    omega
  · simp [hi]

/-- Key accessor fact: after `property_enable` writes a field whose bit
range lies in the writable half-word and whose written encoding fits the
range, `property_enabled` reads back exactly the comparison of that
encoding with the `enable` encoding. -/
theorem property_enable_readback (base : RegSpace) (reg : usb2phy_reg) (en : Bool)
    (hse : reg.bitstart ≤ reg.bitend) (h16 : reg.bitend < 16)
    (hfit : (if en then reg.enable else reg.disable) <
      2 ^ (reg.bitend - reg.bitstart + 1)) :
    property_enabled (property_enable base reg en) reg =
      ((if en then reg.enable else reg.disable) == reg.enable) := by
  have hmask32 : reg.bitend < 32 := by omega
  have hGlt : GENMASK reg.bitend reg.bitstart < 2 ^ 16 := GENMASK_lt h16
  have hts16 : (if en then reg.enable else reg.disable) <<< reg.bitstart < 2 ^ 16 := by
    rw [Nat.shiftLeft_eq]
    calc (if en then reg.enable else reg.disable) * 2 ^ reg.bitstart
        < 2 ^ (reg.bitend - reg.bitstart + 1) * 2 ^ reg.bitstart := by
          exact (Nat.mul_lt_mul_right (Nat.two_pow_pos reg.bitstart)).mpr hfit
      _ = 2 ^ (reg.bitend + 1) := by
          rw [← pow_add]
          congr 1
          omega
      _ ≤ 2 ^ 16 := Nat.pow_le_pow_right (by omega) (by omega)
  have hts32 : (if en then reg.enable else reg.disable) <<< reg.bitstart < 2 ^ 32 :=
    lt_trans hts16 (by norm_num)
  have hG32 : GENMASK reg.bitend reg.bitstart <<< 16 < 2 ^ 32 := by
    rw [Nat.shiftLeft_eq]
    calc GENMASK reg.bitend reg.bitstart * 2 ^ 16 < 2 ^ 16 * 2 ^ 16 :=
          (Nat.mul_lt_mul_right (Nat.two_pow_pos 16)).mpr hGlt
      _ = 2 ^ 32 := by norm_num
  have hnew : property_enable base reg en reg.offset =
      grf_write (base reg.offset)
        (((if en then reg.enable else reg.disable) <<< reg.bitstart) |||
          (GENMASK reg.bitend reg.bitstart <<< 16)) := by
    unfold property_enable regmap_write
    simp only [U2PHY_BIT_WRITEABLE_SHIFT, if_pos]
    rw [Nat.mod_eq_of_lt (by simpa [U32] using hts32),
      Nat.mod_eq_of_lt (by simpa [U32] using hG32)]
  have hhigh : (((if en then reg.enable else reg.disable) <<< reg.bitstart) |||
      (GENMASK reg.bitend reg.bitstart <<< 16)) >>> 16 =
      GENMASK reg.bitend reg.bitstart := by
    apply Nat.eq_of_testBit_eq
    intro j
    simp only [Nat.testBit_shiftRight, Nat.testBit_or]
    have h1 : ((if en then reg.enable else reg.disable) <<< reg.bitstart).testBit (16 + j)
        = false :=
      Nat.testBit_lt_two_pow
        (lt_of_lt_of_le hts16 (Nat.pow_le_pow_right (by omega) (by omega)))
    rw [h1, Bool.false_or, Nat.testBit_shiftLeft]
    have h2 : 16 + j ≥ 16 := by omega
    simp [h2]
  have hm : ((((if en then reg.enable else reg.disable) <<< reg.bitstart) |||
      (GENMASK reg.bitend reg.bitstart <<< 16)) >>> 16) % 2 ^ 16 =
      GENMASK reg.bitend reg.bitstart := by
    rw [hhigh]
    exact Nat.mod_eq_of_lt hGlt
  have hgw : grf_write (base reg.offset)
      (((if en then reg.enable else reg.disable) <<< reg.bitstart) |||
        (GENMASK reg.bitend reg.bitstart <<< 16)) =
      ((base reg.offset % U32) &&& ((U32 - 1) ^^^ GENMASK reg.bitend reg.bitstart)) |||
        ((((if en then reg.enable else reg.disable) <<< reg.bitstart) |||
          (GENMASK reg.bitend reg.bitstart <<< 16)) &&& GENMASK reg.bitend reg.bitstart) := by
    unfold grf_write
    rw [hm]
  have hA_lt : (base reg.offset % U32) &&& ((U32 - 1) ^^^ GENMASK reg.bitend reg.bitstart)
      < 2 ^ 32 :=
    lt_of_le_of_lt Nat.and_le_left (by
      have : base reg.offset % U32 < U32 := Nat.mod_lt _ (by simp [U32])
      simpa [U32] using this)
  have hB_lt : ((((if en then reg.enable else reg.disable) <<< reg.bitstart) |||
      (GENMASK reg.bitend reg.bitstart <<< 16)) &&& GENMASK reg.bitend reg.bitstart)
      < 2 ^ 32 :=
    lt_of_le_of_lt Nat.and_le_right (lt_trans hGlt (by norm_num))
  have hgw_lt : grf_write (base reg.offset)
      (((if en then reg.enable else reg.disable) <<< reg.bitstart) |||
        (GENMASK reg.bitend reg.bitstart <<< 16)) < 2 ^ 32 := by
    rw [hgw]
    exact Nat.or_lt_two_pow hA_lt hB_lt
  have hand : grf_write (base reg.offset)
      (((if en then reg.enable else reg.disable) <<< reg.bitstart) |||
        (GENMASK reg.bitend reg.bitstart <<< 16)) &&& GENMASK reg.bitend reg.bitstart =
      (if en then reg.enable else reg.disable) <<< reg.bitstart := by
    apply Nat.eq_of_testBit_eq
    intro i
    rw [hgw]
    simp only [Nat.testBit_and, Nat.testBit_or, Nat.testBit_xor]
    by_cases hmi : (GENMASK reg.bitend reg.bitstart).testBit i = true
    · have hrange : reg.bitstart ≤ i ∧ i ≤ reg.bitend := by
        have hx := testBit_GENMASK hse hmask32 i
        rw [hmi] at hx
        exact of_decide_eq_true hx.symm
      have hi32 : (U32 - 1).testBit i = true := by
        have hU : U32 - 1 = 2 ^ 32 - 1 := rfl
        rw [hU, Nat.testBit_two_pow_sub_one]
        simp
        omega
      have hv16 : (GENMASK reg.bitend reg.bitstart <<< 16).testBit i = false := by
        rw [Nat.testBit_shiftLeft]
        have hnot : ¬ (i ≥ 16) := by omega
        simp [hnot]
      rw [hmi, hi32, hv16]
      simp
    · have hmi' : (GENMASK reg.bitend reg.bitstart).testBit i = false := by
        simpa using hmi
      rw [hmi']
      simp only [Bool.and_false]
      have hts : ((if en then reg.enable else reg.disable) <<< reg.bitstart).testBit i
          = false := by
        by_contra hx
        have hx' : ((if en then reg.enable else reg.disable) <<< reg.bitstart).testBit i
            = true := by
          simpa using hx
        rw [Nat.testBit_shiftLeft] at hx'
        have hge : i ≥ reg.bitstart := by
          by_contra hgt
          simp [hgt] at hx'
        have htb : (if en then reg.enable else reg.disable).testBit (i - reg.bitstart)
            = true := by
          simpa [hge] using hx'
        have hge2 := Nat.testBit_implies_ge htb
        have hlt2 : 2 ^ (i - reg.bitstart) < 2 ^ (reg.bitend - reg.bitstart + 1) :=
          lt_of_le_of_lt hge2 hfit
        have hilt : i - reg.bitstart < reg.bitend - reg.bitstart + 1 :=
          (Nat.pow_lt_pow_iff_right (by omega)).mp hlt2
        have : (GENMASK reg.bitend reg.bitstart).testBit i = true := by
          rw [testBit_GENMASK hse hmask32]
          simp
          omega
        rw [hmi'] at this
        exact Bool.false_ne_true this
      rw [hts]
  have hfinal : property_enabled (property_enable base reg en) reg =
      ((if en then reg.enable else reg.disable) == reg.enable) := by
    unfold property_enabled regmap_read
    rw [hnew, Nat.mod_eq_of_lt (by simpa [U32] using hgw_lt)]
    dsimp only
    rw [hand, Nat.shiftLeft_eq, Nat.shiftRight_eq_div_pow,
      Nat.mul_div_cancel _ (Nat.two_pow_pos reg.bitstart)]
  exact hfinal

/-- C5 counterexample: the BitField `⟨0, 0, 0, 0, 2⟩` has distinct enabled
and disabled encodings and satisfies the data model's range invariant, yet
writing it enabled and reading it back returns false, because the enable
encoding 2 does not fit the 1-bit range (the masked write truncates it). -/
theorem C5_cex :
    reg_cx5.enable ≠ reg_cx5.disable ∧
    property_enabled (property_enable base0 reg_cx5 true) reg_cx5 = false := by
  decide

/-- C5 (amended): for every BitField whose bit range lies within the
writable lower half-word and whose enabled and disabled encodings are
distinct AND fit the bit range, writing enabled then reading returns true,
and writing disabled then reading returns false, over a register space
honouring the upper-half-word write-enable convention. -/
theorem C5_thm (base : RegSpace) (reg : usb2phy_reg)
    (hse : reg.bitstart ≤ reg.bitend) (h16 : reg.bitend < 16)
    (hen : reg.enable < 2 ^ (reg.bitend - reg.bitstart + 1))
    (hdis : reg.disable < 2 ^ (reg.bitend - reg.bitstart + 1))
    (hne : reg.enable ≠ reg.disable) :
    property_enabled (property_enable base reg true) reg = true ∧
    property_enabled (property_enable base reg false) reg = false := by
  constructor
  · rw [property_enable_readback base reg true hse h16 (by simpa using hen)]
    simp
  · rw [property_enable_readback base reg false hse h16 (by simpa using hdis)]
    simp
    omega

/-- C5 witness: round trip on a concrete 2-bit field over a non-trivial
register space. -/
theorem C5_wit :
    property_enabled (property_enable base0 reg_w true) reg_w = true ∧
    property_enabled (property_enable base0 reg_w false) reg_w = false :=
  C5_thm base0 reg_w (by decide) (by decide) (by decide) (by decide) (by decide)

/-- C6 counterexample: for the BitField `⟨0, 0, 0, 2, 2⟩`, whose enable and
disable encodings are equal, `property_enabled` returns false after a
property write (the encoding 2 does not fit the 1-bit range, so the stored
value never equals the enable encoding), contradicting the claim that it
returns true after any property write. -/
theorem C6_cex :
    reg_cx6.enable = reg_cx6.disable ∧
    property_enabled (property_enable base0 reg_cx6 true) reg_cx6 = false := by
  decide

/-- C6 (amended): `property_enabled` returns true exactly when the value
extracted from the register's bit range equals the field's enable encoding
(exact match, not non-zero); consequently, for a field whose equal enable
and disable encodings fit a bit range within the writable half-word, it
returns true after a property write of either boolean intent. -/
theorem C6_thm (base : RegSpace) (reg : usb2phy_reg) (en : Bool)
    (hse : reg.bitstart ≤ reg.bitend) (h16 : reg.bitend < 16)
    (heq : reg.enable = reg.disable)
    (hfit : reg.enable < 2 ^ (reg.bitend - reg.bitstart + 1)) :
    (property_enabled base reg = (extract_field (base reg.offset) reg == reg.enable)) ∧
    property_enabled (property_enable base reg en) reg = true := by
  constructor
  · rfl
  · have hfit' : (if en then reg.enable else reg.disable) <
        2 ^ (reg.bitend - reg.bitstart + 1) := by
      cases en <;> simp [← heq, hfit]
    rw [property_enable_readback base reg en hse h16 hfit']
    cases en <;> simp [heq]

/-- C6 witness: a 3-bit field with equal encodings 5 reads as enabled after
a disable-intent write. -/
theorem C6_wit :
    (property_enabled base0 reg_w6 = (extract_field (base0 reg_w6.offset) reg_w6 ==
      reg_w6.enable)) ∧
    property_enabled (property_enable base0 reg_w6 false) reg_w6 = true :=
  C6_thm base0 reg_w6 false (by decide) (by decide) (by decide) (by decide)

end Usb2Phy
